import Mathlib

/-!
Shallow embedding of the mutation-safety core of the mysql-mcp-server
repository (main.go, cache/cache.go, mysql/client.go), together with
theorems settling the specification claims about it.

Modelling conventions:
* SQL text is Lean `String` (Go strings restricted to the characters the
  program manipulates; Go byte indices coincide with character indices on
  the ASCII inputs of interest, noted where used).
* Machine integers (`int64`) are `Int`; timestamps (`time.Time`) are `Int`
  instants in nanoseconds, durations are `Int` nanoseconds, so
  `time.Since(t)` at instant `now` is `now - t`.
* The database collaborator (`mysql.Client`) is an explicit record of
  oracles for `Query`, `Execute` and `ExecuteInTransaction`; handlers also
  return the list of collaborator calls they issued, so "no database call
  is made" is a statement about that trace.
* Go `map` values are association lists in iteration order; Go randomises
  map iteration order, so order-sensitive facts proved here (which entry a
  tied eviction picks) hold for the fixed order chosen by the model and the
  order-insensitive consequences stated in the claims hold for every order.
* Recursive text scanners that are not structurally recursive take a fuel
  argument; the wrappers pass `length + 1`, which exceeds every possible
  chain of steps, so the fuel never runs out.
-/

namespace MCP

/-! ## Characters and whitespace -/

/-- ASCII uppercasing of one character, the fragment of Go
`strings.ToUpper` exercised by the program (SQL keywords are ASCII). -/
def upperChar (c : Char) : Char :=
  if 'a' ≤ c ∧ c ≤ 'z' then Char.ofNat (c.toNat - 32) else c

/-- Whitespace as tested by Go `unicode.IsSpace` (used by
`strings.TrimSpace`): space, tab, newline, vertical tab, form feed,
carriage return, NEL and NBSP. -/
def isSpaceGo (c : Char) : Bool :=
  c = ' ' || c = '\t' || c = '\n' || c = Char.ofNat 11 || c = Char.ofNat 12 ||
    c = '\r' || c = Char.ofNat 133 || c = Char.ofNat 160

/-- Whitespace of the RE2 character class `\s`: `[\t\n\f\r ]`. -/
def isSpaceRe (c : Char) : Bool :=
  c = ' ' || c = '\t' || c = '\n' || c = Char.ofNat 12 || c = '\r'

/-- Go `strings.TrimSpace`: strip leading and trailing whitespace. -/
def trimSpaceList (l : List Char) : List Char :=
  ((l.dropWhile isSpaceGo).reverse.dropWhile isSpaceGo).reverse

/-- `listStarts pat l` is true when `pat` is a prefix of `l`
(Go `strings.HasPrefix` on the underlying characters). -/
def listStarts : List Char → List Char → Bool
  | [], _ => true
  | _ :: _, [] => false
  | p :: ps, c :: cs => p = c && listStarts ps cs

/-- Case-insensitive literal match: if the uppercased input starts with the
(uppercase) pattern, return the remainder.  This is the `(?i)` literal step
of the estimator's regular expressions. -/
def ciDrop : List Char → List Char → Option (List Char)
  | [], l => some l
  | _ :: _, [] => none
  | p :: ps, c :: cs => if upperChar c = p then ciDrop ps cs else none

/-! ## The keyword regular expression

`isSelectQuery` and `detectQueryOperation` both apply a pattern of the
shape `^\s*(--.*\n|/\*.*?\*/)*\s*(KW1|KW2|...)` to the uppercased, trimmed
input.  In RE2/Go, `.` does not match a newline, so a line comment extends
exactly to the first newline and a block comment must close before the
next newline; the lazy `.*?` of the block comment prefers the nearest
`*/` but may backtrack to a later one on the same line.  The functions
below implement exactly that search. -/

/-- Remainder after the first newline: the unique way `--.*\n` can consume
text after the `--` marker (`.` cannot cross the newline). -/
def afterLineComment : List Char → Option (List Char)
  | [] => none
  | '\n' :: rest => some rest
  | _ :: rest => afterLineComment rest

/-- All remainders after a closing `*/` reachable without crossing a
newline: the backtracking candidates of `/\*.*?\*/` after the `/*` marker,
nearest first. -/
def blockCandidates : List Char → List (List Char)
  | [] => []
  | '\n' :: _ => []
  | '*' :: '/' :: rest => rest :: blockCandidates rest
  | _ :: rest => blockCandidates rest

/-- First keyword of `ops` that is a prefix of `l` (the alternation of the
pattern; the keywords used are never prefixes of one another). -/
def kwAt (ops : List String) (l : List Char) : Option String :=
  ops.find? (fun op => listStarts op.data l)

/-- The continuation positions reachable by matching one comment at the
current position: a line comment continues after the first newline, a
block comment after any same-line `*/` (nearest first); the two
alternatives cannot apply at the same position. -/
def commentConts : List Char → List (List Char)
  | '-' :: '-' :: rest =>
    match afterLineComment rest with
    | some l2 => [l2]
    | none => []
  | '/' :: '*' :: rest => blockCandidates rest
  | _ => []

/-- Match `(--.*\n|/\*.*?\*/)*\s*(KW…)` at the current position with
backtracking, preferring to consume one more comment (the star is greedy;
on failure the star ends here and `\s*` plus the keyword must match).
`fuel` bounds the recursion; every continuation is strictly shorter than
its position, so `length + 1` fuel always suffices. -/
def matchAfter (ops : List String) : Nat → List Char → Option String
  | 0, _ => none
  | fuel + 1, l =>
    match (commentConts l).findSome? (fun l2 => matchAfter ops fuel l2) with
    | some op => some op
    | none => kwAt ops (l.dropWhile isSpaceRe)

/-- Anchored match of `^\s*(--.*\n|/\*.*?\*/)*\s*(KW…)` returning the
captured keyword.  The leading `\s*` may as well consume the whole
whitespace run: a comment cannot start at a space, and a shorter run makes
the trailing `\s*` finish the job at the same position. -/
def regexKeywordMatch (ops : List String) (l : List Char) : Option String :=
  matchAfter ops (l.length + 1) (l.dropWhile isSpaceRe)

/-! ## Query classifier (main.go `isSelectQuery`, `detectQueryOperation`) -/

/-- The fixed ordered keyword set of `detectQueryOperation`. -/
def operationsList : List String :=
  ["INSERT", "UPDATE", "DELETE", "CREATE", "DROP", "ALTER", "TRUNCATE", "REPLACE"]

/-- main.go `isSelectQuery`: trim and uppercase, then test the anchored
pattern `^\s*(--.*\n|/\*.*?\*/)*\s*SELECT`. -/
def isSelectQuery (query : String) : Bool :=
  let trimmed := trimSpaceList (query.data.map upperChar)
  (regexKeywordMatch ["SELECT"] trimmed).isSome

/-- The keyword decision of `detectQueryOperation` on the trimmed,
uppercased text: first keyword of the fixed set that is a *prefix* of the
text, else retry via the comment-skipping pattern, else `"UNKNOWN"`. -/
def detectFromTrimmed (trimmed : List Char) : String :=
  match operationsList.find? (fun op => listStarts op.data trimmed) with
  | some op => op
  | none =>
    match regexKeywordMatch operationsList trimmed with
    | some op => op
    | none => "UNKNOWN"

/-- main.go `detectQueryOperation`: trim and uppercase, then decide. -/
def detectQueryOperation (query : String) : String :=
  detectFromTrimmed (trimSpaceList (query.data.map upperChar))

/-- mysql/client.go `CanUseTransaction`: statements whose first word is in
the non-transactional list cannot be probed inside a rollback. -/
def nonTransactionalStatements : List String :=
  ["CREATE", "DROP", "ALTER", "TRUNCATE", "RENAME",
   "ANALYZE", "CHECK", "OPTIMIZE", "REPAIR",
   "LOCK", "UNLOCK", "SET", "START", "COMMIT", "ROLLBACK"]

/-- mysql/client.go `CanUseTransaction` on the trimmed, uppercased query:
false iff some non-transactional keyword is the whole query or is followed
by a space at its start. -/
def canUseTransaction (query : String) : Bool :=
  let upperQuery := (trimSpaceList query.data).map upperChar
  !(nonTransactionalStatements.any (fun stmt =>
      listStarts (stmt.data ++ [' ']) upperQuery || upperQuery = stmt.data))

/-! ## Values, rows and integer coercion (main.go `convertToInt64`) -/

/-- Result-set cell as it leaves mysql/client.go `Query`: the client turns
`[]byte` cells into strings before returning, so the cells reaching the
estimator are driver natives (collapsed here to `i64`), strings, or NULL. -/
inductive GoValue where
  | i64 (n : Int)
  | str (s : String)
  | null
deriving DecidableEq

/-- One result row, keyed by column name (`map[string]interface{}`). -/
abbrev Row := List (String × GoValue)

/-- Association-list lookup, the model of Go `m[k]`. -/
def mapLookup {α : Type} (k : String) : List (String × α) → Option α
  | [] => none
  | (k2, v) :: rest => if k2 = k then some v else mapLookup k rest

/-- `fmt.Sscanf(s, "%d", …)`: skip leading whitespace, read an optional
sign and at least one digit, ignore anything after the digits. -/
def parseGoInt (s : String) : Option Int :=
  let l := s.data.dropWhile isSpaceGo
  let signAndRest : Bool × List Char :=
    match l with
    | '-' :: r => (true, r)
    | '+' :: r => (false, r)
    | r => (false, r)
  let ds := signAndRest.2.takeWhile Char.isDigit
  if ds = [] then none
  else
    let n : Nat := ds.foldl (fun acc c => acc * 10 + (c.toNat - 48)) 0
    some (if signAndRest.1 then -(n : Int) else (n : Int))

/-- main.go `convertToInt64` on the modelled value universe: native
integers pass through, strings go through the `Sscanf` parse, NULL (and
anything else) is an error. -/
def convertToInt64 : GoValue → Except String Int
  | .i64 n => .ok n
  | .str s =>
    match parseGoInt s with
    | some n => .ok n
    | none => .error ("cannot convert string '" ++ s ++ "' to int64")
  | .null => .error "cannot convert <nil> to int64"

/-! ## The estimator's regular expressions

All three run on the raw (not uppercased) SQL with the `(?i)` flag; the
deterministic scanners below implement their backtracking semantics, as
justified in the comment of each. -/

/-- One match step of `(?i)DELETE\s+FROM`: `\s+` is effectively maximal
(a shorter run leaves a whitespace character where `FROM` must start). -/
def matchDeleteFrom (l : List Char) : Option (List Char) :=
  match ciDrop "DELETE".data l with
  | none => none
  | some r1 =>
    if r1.takeWhile isSpaceRe = [] then none
    else ciDrop "FROM".data (r1.dropWhile isSpaceRe)

/-- Go `regexp.ReplaceAllString` for `(?i)DELETE\s+FROM`, replacement
`"SELECT COUNT(*) as count FROM"`: leftmost, non-overlapping.  Every match
consumes at least eleven characters, so `length + 1` fuel suffices. -/
def replaceDeleteFrom : Nat → List Char → List Char
  | 0, l => l
  | _ + 1, [] => []
  | fuel + 1, c :: rest =>
    match matchDeleteFrom (c :: rest) with
    | some r => "SELECT COUNT(*) as count FROM".data ++ replaceDeleteFrom fuel r
    | none => c :: replaceDeleteFrom fuel rest

/-- The DELETE → `SELECT COUNT(*)` rewrite of `estimateAffectedRows`. -/
def deleteToCount (sql : String) : String :=
  ⟨replaceDeleteFrom (sql.data.length + 1) sql.data⟩

/-- Suffix of `l` beginning at the first case-insensitive occurrence of
`pat` (the `(WHERE.*)?` capture keeps the original characters from the
first `WHERE` to the end of the text). -/
def firstCiSuffix (pat : String) : List Char → Option (List Char)
  | [] => none
  | c :: rest =>
    if (ciDrop pat.data (c :: rest)).isSome then some (c :: rest)
    else firstCiSuffix pat rest

/-- Match `(?i)UPDATE\s+(\S+)\s+SET\s+.*?(WHERE.*)?$` at the start of `l`,
returning (table, where-clause-or-empty).  Since `.` cannot match a
newline, the text after the whitespace following `SET` must be
newline-free; the lazy `.*?` with the greedy optional group captures from
the first case-insensitive `WHERE` (anywhere, even inside a word) to the
end.  Each `\s+`/`\S+` run is forced maximal because the next pattern
element cannot begin with the character class just left. -/
def matchUpdateAt (l : List Char) : Option (List Char × List Char) :=
  match ciDrop "UPDATE".data l with
  | none => none
  | some r1 =>
    if r1.takeWhile isSpaceRe = [] then none
    else
      let r2 := r1.dropWhile isSpaceRe
      let tok := r2.takeWhile (fun c => !isSpaceRe c)
      if tok = [] then none
      else
        let r3 := r2.dropWhile (fun c => !isSpaceRe c)
        if r3.takeWhile isSpaceRe = [] then none
        else
          match ciDrop "SET".data (r3.dropWhile isSpaceRe) with
          | none => none
          | some r4 =>
            if r4.takeWhile isSpaceRe = [] then none
            else
              let r5 := r4.dropWhile isSpaceRe
              if r5.contains '\n' then none
              else some (tok, (firstCiSuffix "WHERE" r5).getD [])

/-- Leftmost match of the UPDATE pattern (`FindStringSubmatch`). -/
def findUpdateMatch : List Char → Option (List Char × List Char)
  | [] => none
  | c :: rest =>
    match matchUpdateAt (c :: rest) with
    | some m => some m
    | none => findUpdateMatch rest

/-- Match `(?i)TRUNCATE\s+(?:TABLE\s+)?(\S+)` at the start of `l`,
returning the captured table token.  The optional group is greedy: it is
tried first, and abandoned if no `\S+` token follows it. -/
def matchTruncateAt (l : List Char) : Option (List Char) :=
  match ciDrop "TRUNCATE".data l with
  | none => none
  | some r1 =>
    if r1.takeWhile isSpaceRe = [] then none
    else
      let r2 := r1.dropWhile isSpaceRe
      let tokenAt (r : List Char) : Option (List Char) :=
        let tok := r.takeWhile (fun c => !isSpaceRe c)
        if tok = [] then none else some tok
      match ciDrop "TABLE".data r2 with
      | some rt =>
        if rt.takeWhile isSpaceRe = [] then tokenAt r2
        else
          match tokenAt (rt.dropWhile isSpaceRe) with
          | some tok => some tok
          | none => tokenAt r2
      | none => tokenAt r2

/-- Leftmost match of the TRUNCATE pattern. -/
def findTruncateMatch : List Char → Option (List Char)
  | [] => none
  | c :: rest =>
    match matchTruncateAt (c :: rest) with
    | some m => some m
    | none => findTruncateMatch rest

/-- Go `strings.Trim(s, cutset)` for the cutset of backtick, double quote
and single quote used on the TRUNCATE table name. -/
def inCutset (c : Char) : Bool :=
  c = Char.ofNat 96 || c = '"' || c = Char.ofNat 39

/-- Strip cutset characters from both ends of the captured table name. -/
def trimCutset (l : List Char) : List Char :=
  ((l.dropWhile inCutset).reverse.dropWhile inCutset).reverse

/-- Index of the first occurrence of `pat` in `l` (Go `strings.Index`),
as a character offset. -/
def substrIndex (pat : List Char) : List Char → Option Nat
  | [] => none
  | c :: rest =>
    if listStarts pat (c :: rest) then some 0
    else (substrIndex pat rest).map (fun n => n + 1)

/-! ## Database collaborator (mysql/client.go interface) -/

/-- The database collaborator as consumed by the dispatcher: oracles for
`Query` (read), `Execute` (real commit, returning `RowsAffected`) and
`ExecuteInTransaction` (rollback-guarded probe returning the affected-row
count).  Error values carry the Go error message. -/
structure DBConn where
  queryFn : String → Except String (List Row)
  execFn : String → Except String Int
  execInTxFn : String → Except String Int

/-- One call to the database collaborator, recorded in the order issued. -/
inductive DBCall where
  | query (sql : String)
  | exec (sql : String)
  | execInTx (sql : String)
deriving DecidableEq

/-! ## Affected-rows estimator (main.go `estimateAffectedRows`) -/

/-- main.go `estimateAffectedRows`: probe inside an always-rolled-back
transaction when `CanUseTransaction` allows it; on probe failure or
inapplicability fall back to per-operation heuristics.  Returns the Go
result together with the trace of collaborator calls. -/
def estimateAffectedRows (db : DBConn) (sql : String) :
    Except String Int × List DBCall :=
  let probe : Option Int × List DBCall :=
    if canUseTransaction sql then
      match db.execInTxFn sql with
      | .ok n => (some n, [DBCall.execInTx sql])
      | .error _ => (none, [DBCall.execInTx sql])
    else (none, [])
  match probe.1 with
  | some n => (.ok n, probe.2)
  | none =>
    let operation := detectQueryOperation sql
    if operation = "DELETE" then
      let selectQuery := deleteToCount sql
      match db.queryFn selectQuery with
      | .error e => (.error e, probe.2 ++ [DBCall.query selectQuery])
      | .ok results =>
        match results with
        | [] => (.ok 0, probe.2 ++ [DBCall.query selectQuery])
        | row :: _ =>
          match mapLookup "count" row with
          | none => (.ok 0, probe.2 ++ [DBCall.query selectQuery])
          | some v =>
            match convertToInt64 v with
            | .error e =>
              (.error ("failed to convert count: " ++ e),
               probe.2 ++ [DBCall.query selectQuery])
            | .ok n => (.ok n, probe.2 ++ [DBCall.query selectQuery])
    else if operation = "UPDATE" then
      match findUpdateMatch sql.data with
      | none => (.ok 0, probe.2)
      | some (table, whereClause) =>
        let selectQuery :=
          "SELECT COUNT(*) as count FROM " ++ String.mk table ++ " " ++
            String.mk whereClause
        match db.queryFn selectQuery with
        | .error e => (.error e, probe.2 ++ [DBCall.query selectQuery])
        | .ok [] => (.ok 0, probe.2 ++ [DBCall.query selectQuery])
        | .ok (row :: _) =>
          match mapLookup "count" row with
          | some (.i64 v) => (.ok v, probe.2 ++ [DBCall.query selectQuery])
          | some (.str s) =>
            (.ok ((parseGoInt s).getD 0), probe.2 ++ [DBCall.query selectQuery])
          | _ => (.ok 0, probe.2 ++ [DBCall.query selectQuery])
    else if operation = "INSERT" then
      let upper := sql.data.map upperChar
      match substrIndex "VALUES".data upper with
      | some i =>
        let valuesPart := sql.data.drop (i + 6)
        let rowCount : Int := (valuesPart.filter (fun c => c = '(')).length
        if rowCount > 0 then (.ok rowCount, probe.2) else (.ok 1, probe.2)
      | none => (.ok 1, probe.2)
    else if operation = "TRUNCATE" then
      match findTruncateMatch sql.data with
      | none => (.ok (-1), probe.2)
      | some rawTable =>
        let table := String.mk (trimCutset rawTable)
        let selectQuery :=
          "SELECT COUNT(*) as count FROM `" ++ table ++ "`"
        match db.queryFn selectQuery with
        | .error _ => (.ok (-1), probe.2 ++ [DBCall.query selectQuery])
        | .ok [] => (.ok (-1), probe.2 ++ [DBCall.query selectQuery])
        | .ok (row :: _) =>
          match mapLookup "count" row with
          | none => (.ok (-1), probe.2 ++ [DBCall.query selectQuery])
          | some v =>
            match convertToInt64 v with
            | .error _ => (.ok (-1), probe.2 ++ [DBCall.query selectQuery])
            | .ok n => (.ok n, probe.2 ++ [DBCall.query selectQuery])
    else if operation = "DROP" then
      (.ok (-1), probe.2)
    else
      (.ok 0, probe.2)

/-! ## Confirmation-token store (main.go `ExecuteConfirmation`) -/

/-- main.go `ExecuteConfirmation`: one pending mutation preview.  `Table`
exists in the source struct but is never assigned. -/
structure ExecuteConfirmation where
  SQL : String
  AffectedRows : Int
  Operation : String
  Table : String
  CreatedAt : Int
deriving DecidableEq

/-- `map[string]*ExecuteConfirmation` in iteration order. -/
abbrev TokenStore := List (String × ExecuteConfirmation)

/-- Go `m[k] = v`: replace the binding in place, or append a new one. -/
def mapInsert {α : Type} (k : String) (v : α) :
    List (String × α) → List (String × α)
  | [] => [(k, v)]
  | (k2, v2) :: rest =>
    if k2 = k then (k, v) :: rest else (k2, v2) :: mapInsert k v rest

/-- Go `delete(m, k)`: remove the binding of `k` if present. -/
def mapErase {α : Type} (k : String) :
    List (String × α) → List (String × α)
  | [] => []
  | (k2, v) :: rest =>
    if k2 = k then rest else (k2, v) :: mapErase k rest

/-- Five minutes in nanoseconds (`5 * time.Minute`), the confirmation TTL
and also the cache TTL the server is constructed with. -/
def fiveMinutes : Int := 300000000000

/-- main.go `cleanupExpiredTokens`: drop every confirmation older than
five minutes at instant `now`. -/
def cleanupExpiredTokens (now : Int) (tokens : TokenStore) : TokenStore :=
  tokens.filter (fun kv => !(now - kv.2.CreatedAt > fiveMinutes))

/-! ## Result cache (cache/cache.go) -/

/-- cache/cache.go `CacheEntry`. -/
structure CacheEntry where
  Result : List Row
  Timestamp : Int
deriving DecidableEq

/-- cache/cache.go `QueryCache` (the mutex only serialises access and has
no observable effect on the sequential semantics modelled here). -/
structure QueryCache where
  entries : List (String × CacheEntry)
  ttl : Int
  maxEntries : Nat
deriving DecidableEq

/-- The eviction scan of `Set`: fold over the entries keeping the first
entry seen with the strictly smallest timestamp, exactly the
`oldestTime.IsZero() || v.Timestamp.Before(oldestTime)` loop (entries are
stamped with the current time, so the Go zero-time sentinel only means
"nothing selected yet", modelled by `none`). -/
def findOldestAux (acc : Option (String × Int)) :
    List (String × CacheEntry) → Option (String × Int)
  | [] => acc
  | (k, e) :: rest =>
    match acc with
    | none => findOldestAux (some (k, e.Timestamp)) rest
    | some (k0, t0) =>
      if e.Timestamp < t0 then findOldestAux (some (k, e.Timestamp)) rest
      else findOldestAux (some (k0, t0)) rest

/-- Key and timestamp of the entry `Set` will evict. -/
def findOldestKey (l : List (String × CacheEntry)) : Option (String × Int) :=
  findOldestAux none l

/-- cache/cache.go `Get` at instant `now`: a hit only if the entry exists
and is not older than the TTL; expired entries are left in place. -/
def QueryCache.Get (c : QueryCache) (now : Int) (query : String) :
    Option (List Row) :=
  match mapLookup query c.entries with
  | none => none
  | some entry =>
    if now - entry.Timestamp > c.ttl then none else some entry.Result

/-- cache/cache.go `Set` at instant `now`: when the map already holds at
least `maxEntries` entries, first delete the oldest-timestamped one (a
no-op delete of the empty key when the map is empty), then store the new
entry with the current timestamp. -/
def QueryCache.Set (c : QueryCache) (now : Int) (query : String)
    (result : List Row) : QueryCache :=
  let entries :=
    if c.entries.length ≥ c.maxEntries then
      match findOldestKey c.entries with
      | some (oldestKey, _) => mapErase oldestKey c.entries
      | none => c.entries
    else c.entries
  { c with entries := mapInsert query ⟨result, now⟩ entries }

/-- cache/cache.go `cleanup` body (one sweep tick): purge entries older
than the TTL. -/
def QueryCache.sweep (c : QueryCache) (now : Int) : QueryCache :=
  { c with entries := c.entries.filter (fun kv => !(now - kv.2.Timestamp > c.ttl)) }

/-! ## Execute tool (main.go `handleExecuteTool`)

The JSON-RPC envelope and the presentation-only `content` text blocks are
out of scope; the model keeps the error `{code, message}` pair and the
structured result fields the control flow and the claims depend on.  The
warning strings appear in the repository snapshot with their emoji
double-encoded; they are modelled with the intended code points, which is
immaterial since every comparison is between these constants. -/

/-- Tool arguments as extracted by gjson: a missing string field reads as
`""`, and `dry_run` carries both its `Exists()` and `Bool()` views. -/
structure ExecuteArgs where
  sql : String
  dryRunPresent : Bool
  dryRunValue : Bool
  confirmToken : String

/-- The structured fields of a successful confirmed execution. -/
structure ExecPayload where
  operation : String
  rows_affected : Int
  estimated_rows : Int
deriving DecidableEq

/-- The structured fields of a dry-run response. -/
structure DryRunPayload where
  affected_rows : Int
  operation : String
  confirm_token : String
  warning : String
  warning_detail : String
  is_dangerous_operation : Bool
  is_exact_count : Bool
deriving DecidableEq

/-- Outcome of one execute-tool invocation: exactly one of an error
`{code, message}` or a result payload. -/
inductive HandlerResult where
  | err (code : Int) (message : String)
  | executed (p : ExecPayload)
  | dryRun (p : DryRunPayload)
deriving DecidableEq

/-- The "large" warning (estimate above 1000 rows). -/
def warningLarge (n : Int) : String :=
  "⚠️  WARNING: This operation will affect " ++ (toString n ++ " rows")

/-- The "unknown" warning (estimate is -1). -/
def warningUnknown : String :=
  "⚠️  WARNING: Unable to estimate affected rows for this operation"

/-- Detail line accompanying the "unknown" warning. -/
def warningUnknownDetail (operation : String) : String :=
  "Operation type: " ++ operation ++
    " - This operation may affect the entire table or database structure."

/-- The "critical" warning for DROP. -/
def warningCriticalDrop : String :=
  "🚨 CRITICAL: DROP operation will permanently delete database objects"

/-- The "critical" warning for TRUNCATE. -/
def warningCriticalTruncate : String :=
  "🚨 CRITICAL: TRUNCATE will delete ALL rows from the table"

/-- Warning and detail of the dry-run response as built by the handler:
the large/unknown tiers first, then the dangerous-operation override for
DROP and TRUNCATE (ALTER is flagged dangerous but keeps its warning). -/
def dryRunWarning (operation : String) (affectedRows : Int) : String × String :=
  let base : String × String :=
    if affectedRows > 1000 then
      (warningLarge affectedRows,
       "This is a large number of rows. Please ensure this is intentional.")
    else if affectedRows = -1 then
      (warningUnknown, warningUnknownDetail operation)
    else ("", "")
  if operation = "DROP" then
    (warningCriticalDrop,
     "This operation cannot be undone. All data will be permanently lost.")
  else if operation = "TRUNCATE" then
    (warningCriticalTruncate,
     "This operation is faster than DELETE but cannot be rolled back and resets AUTO_INCREMENT.")
  else base

/-- main.go `handleExecuteTool` at instant `now`.  `newToken` stands for
the fresh value of `generateConfirmToken` (an MD5 of statement, estimate
and nanosecond clock, opaque to control flow).  Returns the response, the
confirmation store after the call, and the database calls issued. -/
def handleExecuteTool (db : DBConn) (now : Int) (newToken : String)
    (tokens : TokenStore) (args : ExecuteArgs) :
    HandlerResult × TokenStore × List DBCall :=
  if args.sql = "" then
    (.err (-32602) "SQL parameter is required", tokens, [])
  else if isSelectQuery args.sql then
    (.err (-32602) "SELECT queries should use the 'query' tool instead. Use the 'query' tool for SELECT statements.",
     tokens, [])
  else
    let dryRun := if args.dryRunPresent then args.dryRunValue else true
    if dryRun = false then
      if args.confirmToken = "" then
        (.err (-32602) "confirm_token is required when dry_run=false", tokens, [])
      else
        match mapLookup args.confirmToken tokens with
        | none =>
          (.err (-32602) "Invalid or expired confirmation token", tokens, [])
        | some confirmation =>
          if now - confirmation.CreatedAt > fiveMinutes then
            (.err (-32602) "Confirmation token has expired. Please run with dry_run=true again.",
             mapErase args.confirmToken tokens, [])
          else if confirmation.SQL ≠ args.sql then
            (.err (-32602) "SQL does not match the confirmation token", tokens, [])
          else
            match db.execFn args.sql with
            | .error e =>
              (.err (-32603) ("Execution failed: " ++ e), tokens,
               [DBCall.exec args.sql])
            | .ok rowsAffected =>
              (.executed ⟨confirmation.Operation, rowsAffected, confirmation.AffectedRows⟩,
               mapErase args.confirmToken tokens, [DBCall.exec args.sql])
    else
      let operation := detectQueryOperation args.sql
      match estimateAffectedRows db args.sql with
      | (.error e, calls) =>
        (.err (-32603) ("Failed to analyze query: " ++ e), tokens, calls)
      | (.ok affectedRows, calls) =>
        let isExactCount := canUseTransaction args.sql
        let tokens1 :=
          mapInsert newToken ⟨args.sql, affectedRows, operation, "", now⟩ tokens
        let tokens2 := cleanupExpiredTokens now tokens1
        let wd := dryRunWarning operation affectedRows
        let isDangerous :=
          operation = "DROP" || operation = "TRUNCATE" || operation = "ALTER"
        (.dryRun ⟨affectedRows, operation, newToken, wd.1, wd.2, isDangerous, isExactCount⟩,
         tokens2, calls)

/-! ## Query tool (main.go `handleQueryTool`)

The output format parameter only selects a renderer and is out of scope;
the model returns the rows and whether they came from the cache. -/

/-- Outcome of one query-tool invocation. -/
inductive QueryToolResult where
  | err (code : Int) (message : String)
  | ok (rows : List Row) (cached : Bool)
deriving DecidableEq

/-- The rejection message for a non-SELECT statement, which directs the
caller to the execute tool. -/
def queryRejectMessage (operation : String) : String :=
  "This tool only supports SELECT queries. For " ++ operation ++
    " operations, please use the 'execute' tool instead. Use the 'execute' tool with dry_run=true first to preview changes before executing data modification queries."

/-- main.go `handleQueryTool` at instant `now`: validate, consult the
cache, otherwise query the database and populate the cache. -/
def handleQueryTool (db : DBConn) (now : Int) (cache : QueryCache)
    (query : String) : QueryToolResult × QueryCache × List DBCall :=
  if query = "" then
    (.err (-32602) "Query parameter is required", cache, [])
  else if !isSelectQuery query then
    (.err (-32602) (queryRejectMessage (detectQueryOperation query)), cache, [])
  else
    match cache.Get now query with
    | some rows => (.ok rows true, cache, [])
    | none =>
      match db.queryFn query with
      | .error e => (.err (-32603) ("Query failed: " ++ e), cache, [DBCall.query query])
      | .ok results =>
        (.ok results false, cache.Set now query results, [DBCall.query query])

/-! ## Association-list lemmas -/

/-- Keys of an association list, in iteration order. -/
def mapKeys {α : Type} (l : List (String × α)) : List String :=
  l.map Prod.fst

theorem mapLookup_insert_self {α : Type} (k : String) (v : α)
    (l : List (String × α)) : mapLookup k (mapInsert k v l) = some v := by
  induction l with
  | nil => simp [mapInsert, mapLookup]
  | cons p rest ih =>
    by_cases h : p.1 = k
    · simp [mapInsert, h, mapLookup]
    · simp [mapInsert, h, mapLookup, ih]

theorem mapLookup_insert_ne {α : Type} {k k2 : String} (v : α)
    (l : List (String × α)) (h : k2 ≠ k) :
    mapLookup k2 (mapInsert k v l) = mapLookup k2 l := by
  induction l with
  | nil => simp [mapInsert, mapLookup, Ne.symm h]
  | cons p rest ih =>
    obtain ⟨k1, v1⟩ := p
    by_cases hp : k1 = k
    · subst hp
      simp [mapInsert, mapLookup, Ne.symm h]
    · simp [mapInsert, hp, mapLookup, ih]

theorem mapInsert_length_le {α : Type} (k : String) (v : α)
    (l : List (String × α)) :
    (mapInsert k v l).length ≤ l.length + 1 := by
  induction l with
  | nil => simp [mapInsert]
  | cons p rest ih =>
    by_cases hp : p.1 = k
    · simp [mapInsert, hp]
    · simp only [mapInsert, hp, if_false, List.length_cons]
      omega

theorem mapInsert_length_mem {α : Type} {k : String} (v : α)
    {l : List (String × α)} (h : k ∈ mapKeys l) :
    (mapInsert k v l).length = l.length := by
  induction l with
  | nil => simp [mapKeys] at h
  | cons p rest ih =>
    by_cases hp : p.1 = k
    · simp [mapInsert, hp]
    · have h2 : k ∈ mapKeys rest := by
        simp [mapKeys] at h ⊢
        rcases h with h | h
        · exact absurd h.symm hp
        · exact h
      simp [mapInsert, hp, ih h2]

theorem mapErase_length {α : Type} {k : String} {l : List (String × α)}
    (h : k ∈ mapKeys l) : (mapErase k l).length + 1 = l.length := by
  induction l with
  | nil => simp [mapKeys] at h
  | cons p rest ih =>
    by_cases hp : p.1 = k
    · simp [mapErase, hp]
    · have h2 : k ∈ mapKeys rest := by
        simp [mapKeys] at h ⊢
        rcases h with h | h
        · exact absurd h.symm hp
        · exact h
      simp [mapErase, hp, List.length_cons, ih h2]

theorem mapLookup_eq_none_of_not_mem {α : Type} {k : String}
    {l : List (String × α)} (h : ¬ k ∈ mapKeys l) :
    mapLookup k l = none := by
  induction l with
  | nil => simp [mapLookup]
  | cons p rest ih =>
    obtain ⟨k1, v1⟩ := p
    have h1 : ¬ k1 = k := by
      intro he
      exact h (by simp [mapKeys, he])
    have h2 : ¬ k ∈ mapKeys rest := by
      intro hm
      exact h (by simp [mapKeys] at hm ⊢; exact Or.inr hm)
    simp [mapLookup, h1, ih h2]

theorem mapKeys_erase_not_mem {α : Type} {k : String}
    {l : List (String × α)} (hnd : (mapKeys l).Nodup) :
    ¬ k ∈ mapKeys (mapErase k l) := by
  induction l with
  | nil => simp [mapErase, mapKeys]
  | cons p rest ih =>
    obtain ⟨k1, v1⟩ := p
    simp only [mapKeys, List.map_cons, List.nodup_cons] at hnd
    by_cases hp : k1 = k
    · subst hp
      intro hm
      simp only [mapErase, if_pos rfl] at hm
      exact hnd.1 (by simpa [mapKeys] using hm)
    · intro hm
      simp only [mapErase, if_neg hp, mapKeys, List.map_cons,
        List.mem_cons] at hm
      rcases hm with hm | hm
      · exact hp hm.symm
      · exact ih hnd.2 (by simpa [mapKeys] using hm)

theorem mapLookup_erase_self {α : Type} {k : String}
    {l : List (String × α)} (hnd : (mapKeys l).Nodup) :
    mapLookup k (mapErase k l) = none :=
  mapLookup_eq_none_of_not_mem (mapKeys_erase_not_mem hnd)

theorem mem_mapKeys_erase {α : Type} {k k2 : String}
    {l : List (String × α)} (h : k2 ≠ k) :
    k2 ∈ mapKeys (mapErase k l) ↔ k2 ∈ mapKeys l := by
  induction l with
  | nil => simp [mapErase]
  | cons p rest ih =>
    obtain ⟨k1, v1⟩ := p
    by_cases hp : k1 = k
    · subst hp
      simp only [mapErase, if_pos rfl, mapKeys, List.map_cons, List.mem_cons]
      constructor
      · intro hm
        exact Or.inr hm
      · rintro (hm | hm)
        · exact absurd hm h
        · exact hm
    · simp only [mapErase, if_neg hp, mapKeys, List.map_cons, List.mem_cons]
      constructor
      · rintro (hm | hm)
        · exact Or.inl hm
        · exact Or.inr ((by simpa [mapKeys] using ih : _ ↔ _).1 hm)
      · rintro (hm | hm)
        · exact Or.inl hm
        · exact Or.inr ((by simpa [mapKeys] using ih : _ ↔ _).2 hm)

theorem mapLookup_filter {α : Type} {k : String} {v : α}
    {l : List (String × α)} {p : String × α → Bool}
    (hl : mapLookup k l = some v) (hp : p (k, v) = true) :
    mapLookup k (l.filter p) = some v := by
  induction l with
  | nil => simp [mapLookup] at hl
  | cons q rest ih =>
    obtain ⟨k1, v1⟩ := q
    by_cases hq : k1 = k
    · subst hq
      have hv : v1 = v := by
        simpa [mapLookup] using hl
      subst hv
      simp [List.filter, hp, mapLookup]
    · have hl2 : mapLookup k rest = some v := by
        simpa [mapLookup, hq] using hl
      by_cases hpq : p (k1, v1) = true
      · simp [List.filter, hpq, mapLookup, hq, ih hl2]
      · simp only [Bool.not_eq_true] at hpq
        simp [List.filter, hpq, ih hl2]

/-! ## Eviction-scan lemmas -/

theorem findOldestAux_acc_le {l : List (String × CacheEntry)} :
    ∀ {k0 t0 k t}, findOldestAux (some (k0, t0)) l = some (k, t) → t ≤ t0 := by
  induction l with
  | nil =>
    intro k0 t0 k t h
    simp [findOldestAux] at h
    omega
  | cons p rest ih =>
    intro k0 t0 k t h
    obtain ⟨k1, e1⟩ := p
    by_cases hlt : e1.Timestamp < t0
    · simp only [findOldestAux, if_pos hlt] at h
      have := ih h
      omega
    · simp only [findOldestAux, if_neg hlt] at h
      exact ih h

theorem findOldestAux_min {l : List (String × CacheEntry)} :
    ∀ {acc k t}, findOldestAux acc l = some (k, t) →
      ∀ p ∈ l, t ≤ p.2.Timestamp := by
  induction l with
  | nil =>
    intro acc k t _ p hp
    simp at hp
  | cons q rest ih =>
    intro acc k t h p hp
    obtain ⟨k1, e1⟩ := q
    rcases List.mem_cons.1 hp with hp | hp
    · subst hp
      match acc with
      | none =>
        simp only [findOldestAux] at h
        exact findOldestAux_acc_le h
      | some (k0, t0) =>
        by_cases hlt : e1.Timestamp < t0
        · simp only [findOldestAux, if_pos hlt] at h
          exact findOldestAux_acc_le h
        · simp only [findOldestAux, if_neg hlt] at h
          have := findOldestAux_acc_le h
          show t ≤ e1.Timestamp
          omega
    · match acc with
      | none =>
        simp only [findOldestAux] at h
        exact ih h p hp
      | some (k0, t0) =>
        by_cases hlt : e1.Timestamp < t0
        · simp only [findOldestAux, if_pos hlt] at h
          exact ih h p hp
        · simp only [findOldestAux, if_neg hlt] at h
          exact ih h p hp

theorem findOldestAux_mem {l : List (String × CacheEntry)} :
    ∀ {acc k t}, findOldestAux acc l = some (k, t) →
      (∃ p ∈ l, p.1 = k ∧ p.2.Timestamp = t) ∨ acc = some (k, t) := by
  induction l with
  | nil =>
    intro acc k t h
    simp [findOldestAux] at h
    exact Or.inr (by simp [h])
  | cons q rest ih =>
    intro acc k t h
    obtain ⟨k1, e1⟩ := q
    have step :
        ∀ {k2 t2}, findOldestAux (some (k2, t2)) rest = some (k, t) →
          ((k2 = k1 ∧ t2 = e1.Timestamp) ∨ acc = some (k2, t2)) →
          (∃ p ∈ (k1, e1) :: rest, p.1 = k ∧ p.2.Timestamp = t) ∨
            acc = some (k, t) := by
      intro k2 t2 h2 hsrc
      rcases ih h2 with hmem | hacc
      · obtain ⟨p, hp, hpk, hpt⟩ := hmem
        exact Or.inl ⟨p, List.mem_cons_of_mem _ hp, hpk, hpt⟩
      · rcases hsrc with ⟨hk, ht⟩ | hval
        · obtain ⟨h1, h2⟩ := Option.some.injEq _ _ ▸ hacc
          have hpair := Option.some.inj hacc
          injection hpair with hkk htt
          exact Or.inl ⟨(k1, e1), List.mem_cons_self _ _, hk ▸ hkk, ht ▸ htt⟩
        · exact Or.inr (hval.trans hacc)
    match hacc : acc with
    | none =>
      simp only [findOldestAux] at h
      exact step h (Or.inl ⟨rfl, rfl⟩)
    | some (k0, t0) =>
      by_cases hlt : e1.Timestamp < t0
      · simp only [findOldestAux, if_pos hlt] at h
        exact step h (Or.inl ⟨rfl, rfl⟩)
      · simp only [findOldestAux, if_neg hlt] at h
        exact step h (Or.inr rfl)

theorem findOldestAux_isSome (l : List (String × CacheEntry)) :
    ∀ (k0 : String) (t0 : Int),
      (findOldestAux (some (k0, t0)) l).isSome := by
  induction l with
  | nil =>
    intro k0 t0
    simp [findOldestAux]
  | cons q rest ih =>
    intro k0 t0
    obtain ⟨k1, e1⟩ := q
    by_cases hlt : e1.Timestamp < t0
    · simp only [findOldestAux, if_pos hlt]
      exact ih _ _
    · simp only [findOldestAux, if_neg hlt]
      exact ih _ _

theorem findOldestKey_isSome {l : List (String × CacheEntry)}
    (h : l ≠ []) : (findOldestKey l).isSome := by
  match l, h with
  | (k1, e1) :: rest, _ =>
    simp only [findOldestKey, findOldestAux]
    exact findOldestAux_isSome rest k1 e1.Timestamp

theorem findOldestKey_mem {l : List (String × CacheEntry)} {k : String}
    {t : Int} (h : findOldestKey l = some (k, t)) : k ∈ mapKeys l := by
  rcases findOldestAux_mem h with hmem | hacc
  · obtain ⟨p, hp, hpk, _⟩ := hmem
    exact hpk ▸ List.mem_map_of_mem Prod.fst hp
  · simp at hacc

/-! ## Claim C6: cache capacity and eviction -/

/-- C6: for every sequence of cache operations the entry count never
exceeds `maxEntries` (shown as preservation by `Set`, the only inserting
operation; `Get`, the sweep and `Clear` never add entries), and an
insertion at capacity first removes exactly one entry, one with the
smallest `cachedAt` timestamp among the current entries.  The positivity
hypothesis is satisfied by the server's configuration (1000). -/
theorem set_capacity_invariant_and_evicts_oldest (c : QueryCache)
    (now : Int) (q : String) (r : List Row)
    (hmax : 0 < c.maxEntries) (hle : c.entries.length ≤ c.maxEntries) :
    (c.Set now q r).entries.length ≤ c.maxEntries ∧
      (∀ now2 : Int, (c.sweep now2).entries.length ≤ c.entries.length) ∧
      (c.entries.length = c.maxEntries →
        ∃ k t, findOldestKey c.entries = some (k, t) ∧
          (∀ p ∈ c.entries, t ≤ p.2.Timestamp) ∧
          k ∈ mapKeys c.entries ∧
          (mapErase k c.entries).length + 1 = c.entries.length ∧
          (c.Set now q r).entries =
            mapInsert q ⟨r, now⟩ (mapErase k c.entries)) := by
  have hfull_case : c.entries.length = c.maxEntries →
      ∃ k t, findOldestKey c.entries = some (k, t) ∧
        (∀ p ∈ c.entries, t ≤ p.2.Timestamp) ∧
        k ∈ mapKeys c.entries ∧
        (mapErase k c.entries).length + 1 = c.entries.length ∧
        (c.Set now q r).entries =
          mapInsert q ⟨r, now⟩ (mapErase k c.entries) := by
    intro hfull
    have hne : c.entries ≠ [] := by
      intro hnil
      rw [hnil] at hfull
      simp at hfull
      omega
    obtain ⟨⟨k, t⟩, hkt⟩ := Option.isSome_iff_exists.1 (findOldestKey_isSome hne)
    refine ⟨k, t, hkt, findOldestAux_min hkt, findOldestKey_mem hkt,
      mapErase_length (findOldestKey_mem hkt), ?_⟩
    unfold QueryCache.Set
    rw [if_pos (by omega), hkt]
  refine ⟨?_, fun now2 => List.length_filter_le _ _, hfull_case⟩
  by_cases hfull : c.entries.length = c.maxEntries
  · obtain ⟨k, t, _, _, hk, hlen, hset⟩ := hfull_case hfull
    rw [hset]
    calc (mapInsert q ⟨r, now⟩ (mapErase k c.entries)).length
        ≤ (mapErase k c.entries).length + 1 := mapInsert_length_le _ _ _
      _ = c.entries.length := hlen
      _ = c.maxEntries := hfull
  · have hlt : c.entries.length < c.maxEntries := by omega
    have hset : (c.Set now q r).entries = mapInsert q ⟨r, now⟩ c.entries := by
      unfold QueryCache.Set
      rw [if_neg (by omega)]
    rw [hset]
    calc (mapInsert q ⟨r, now⟩ c.entries).length
        ≤ c.entries.length + 1 := mapInsert_length_le _ _ _
      _ ≤ c.maxEntries := by omega

/-- Witness cache for C6: two entries, capacity two, timestamps 5 and 3. -/
def witnessCacheC6 : QueryCache :=
  ⟨[("a", ⟨[], 5⟩), ("b", ⟨[], 3⟩)], fiveMinutes, 2⟩

/-- C6 witness: the capacity theorem applied to a concrete full cache. -/
theorem set_capacity_invariant_witness :
    0 < witnessCacheC6.maxEntries ∧
      witnessCacheC6.entries.length ≤ witnessCacheC6.maxEntries ∧
      ((witnessCacheC6.Set 10 "c" []).entries.length ≤ witnessCacheC6.maxEntries ∧
        (∀ now2 : Int,
          (witnessCacheC6.sweep now2).entries.length ≤
            witnessCacheC6.entries.length) ∧
        (witnessCacheC6.entries.length = witnessCacheC6.maxEntries →
          ∃ k t, findOldestKey witnessCacheC6.entries = some (k, t) ∧
            (∀ p ∈ witnessCacheC6.entries, t ≤ p.2.Timestamp) ∧
            k ∈ mapKeys witnessCacheC6.entries ∧
            (mapErase k witnessCacheC6.entries).length + 1 =
              witnessCacheC6.entries.length ∧
            (witnessCacheC6.Set 10 "c" []).entries =
              mapInsert "c" ⟨[], 10⟩ (mapErase k witnessCacheC6.entries))) :=
  ⟨by decide, by decide,
    set_capacity_invariant_and_evicts_oldest witnessCacheC6 10 "c" []
      (by decide) (by decide)⟩

/-! ## Claim C7: put/get round trip and read-time expiry -/

/-- C7: a `put(k, v)` followed immediately by `get(k)` returns `v`, and an
entry whose age exceeds the TTL at lookup time reads as not-found even
though the map still physically contains it.  The TTL nonnegativity
hypothesis is satisfied by the server's configuration (five minutes). -/
theorem put_get_roundtrip_and_read_time_expiry (c : QueryCache)
    (now : Int) (q : String) (r : List Row) (httl : 0 ≤ c.ttl) :
    (c.Set now q r).Get now q = some r ∧
      (∀ e, mapLookup q c.entries = some e → now - e.Timestamp > c.ttl →
        c.Get now q = none ∧ mapLookup q c.entries ≠ none) := by
  constructor
  · unfold QueryCache.Set QueryCache.Get
    simp only
    rw [mapLookup_insert_self]
    simp [show ¬ now - now > c.ttl by omega]
    omega
  · intro e he hage
    constructor
    · unfold QueryCache.Get
      rw [he]
      simp [hage]
    · rw [he]
      simp

/-- Witness cache for C7: one entry aged beyond the TTL at instant
`fiveMinutes + 11`. -/
def witnessCacheC7 : QueryCache :=
  ⟨[("old", ⟨[[("x", GoValue.i64 1)]], 10⟩)], fiveMinutes, 1000⟩

/-- C7 witness: the round-trip and expiry theorem applied to a concrete
cache and instant. -/
theorem put_get_roundtrip_witness :
    (0 : Int) ≤ witnessCacheC7.ttl ∧
      ((witnessCacheC7.Set 20 "q1" []).Get 20 "q1" = some [] ∧
        (∀ e, mapLookup "old" witnessCacheC7.entries = some e →
          (fiveMinutes + 11) - e.Timestamp > witnessCacheC7.ttl →
          witnessCacheC7.Get (fiveMinutes + 11) "old" = none ∧
            mapLookup "old" witnessCacheC7.entries ≠ none)) :=
  ⟨by decide,
    (put_get_roundtrip_and_read_time_expiry witnessCacheC7 20 "q1" []
      (by decide)).1,
    (put_get_roundtrip_and_read_time_expiry witnessCacheC7 (fiveMinutes + 11)
      "old" [] (by decide)).2⟩

/-! ## Claim C10: updating an existing key at capacity still evicts -/

/-- C10: when the cache is at capacity, a `Set` on a key that is already
present still evicts the oldest-timestamped entry before overwriting;
when that oldest entry has a different key, it is silently removed, the
updated key holds the new value, and the entry count drops below
`maxEntries`. -/
theorem set_existing_key_at_capacity_still_evicts (c : QueryCache)
    (now : Int) (q : String) (r : List Row) (k : String) (t : Int)
    (hnd : (mapKeys c.entries).Nodup)
    (hfull : c.entries.length = c.maxEntries)
    (hq : q ∈ mapKeys c.entries)
    (hold : findOldestKey c.entries = some (k, t))
    (hne : k ≠ q) :
    (c.Set now q r).entries.length + 1 = c.maxEntries ∧
      mapLookup k (c.Set now q r).entries = none ∧
      mapLookup q (c.Set now q r).entries = some ⟨r, now⟩ ∧
      (∀ p ∈ c.entries, t ≤ p.2.Timestamp) := by
  have hk : k ∈ mapKeys c.entries := findOldestKey_mem hold
  have hset : (c.Set now q r).entries =
      mapInsert q ⟨r, now⟩ (mapErase k c.entries) := by
    unfold QueryCache.Set
    rw [if_pos (by omega), hold]
  refine ⟨?_, ?_, ?_, findOldestAux_min hold⟩
  · rw [hset]
    have hq2 : q ∈ mapKeys (mapErase k c.entries) :=
      (mem_mapKeys_erase (Ne.symm hne)).2 hq
    rw [mapInsert_length_mem _ hq2]
    rw [mapErase_length hk]
    exact hfull
  · rw [hset, mapLookup_insert_ne _ _ hne]
    exact mapLookup_erase_self hnd
  · rw [hset]
    exact mapLookup_insert_self _ _ _

/-- Witness cache for C10: at capacity two, `"b"` is oldest, `"a"` is the
key being updated. -/
def witnessCacheC10 : QueryCache :=
  ⟨[("a", ⟨[], 5⟩), ("b", ⟨[], 3⟩)], fiveMinutes, 2⟩

/-- C10 witness: the eviction-on-overwrite theorem applied to a concrete
full cache: updating `"a"` removes `"b"` and leaves one of two slots
used. -/
theorem set_existing_key_at_capacity_witness :
    (mapKeys witnessCacheC10.entries).Nodup ∧
      witnessCacheC10.entries.length = witnessCacheC10.maxEntries ∧
      "a" ∈ mapKeys witnessCacheC10.entries ∧
      findOldestKey witnessCacheC10.entries = some ("b", 3) ∧
      ((witnessCacheC10.Set 10 "a" []).entries.length + 1 =
          witnessCacheC10.maxEntries ∧
        mapLookup "b" (witnessCacheC10.Set 10 "a" []).entries = none ∧
        mapLookup "a" (witnessCacheC10.Set 10 "a" []).entries =
          some ⟨[], 10⟩ ∧
        (∀ p ∈ witnessCacheC10.entries, (3 : Int) ≤ p.2.Timestamp)) :=
  ⟨by decide, by decide, by decide, by decide,
    set_existing_key_at_capacity_still_evicts witnessCacheC10 10 "a" [] "b" 3
      (by decide) (by decide) (by decide) (by decide) (by decide)⟩

/-! ## Handler path lemmas -/

/-- A database collaborator that fails every call; the theorems that use
it never reach the database. -/
def dbUnused : DBConn :=
  ⟨fun _ => .error "unused", fun _ => .error "unused", fun _ => .error "unused"⟩

theorem isSelectQuery_empty : isSelectQuery "" = false := by decide

/-- The dry-run path of `handleExecuteTool` in closed form: for a
non-empty, non-SELECT statement with the dry-run flag in effect and a
successful estimate, the handler stores the confirmation under the fresh
token, sweeps expired tokens, and answers with the estimate, the warning
pair, the danger flag and the transaction-eligibility bit. -/
theorem handleExecuteTool_dryRun (db : DBConn) (now : Int)
    (newToken : String) (tokens : TokenStore) (args : ExecuteArgs)
    (est : Int) (calls : List DBCall)
    (hsql : args.sql ≠ "") (hsel : isSelectQuery args.sql = false)
    (hdr : (if args.dryRunPresent then args.dryRunValue else true) = true)
    (hest : estimateAffectedRows db args.sql = (.ok est, calls)) :
    handleExecuteTool db now newToken tokens args =
      (.dryRun ⟨est, detectQueryOperation args.sql, newToken,
         (dryRunWarning (detectQueryOperation args.sql) est).1,
         (dryRunWarning (detectQueryOperation args.sql) est).2,
         (detectQueryOperation args.sql = "DROP" ||
           detectQueryOperation args.sql = "TRUNCATE" ||
           detectQueryOperation args.sql = "ALTER"),
         canUseTransaction args.sql⟩,
       cleanupExpiredTokens now
         (mapInsert newToken
           ⟨args.sql, est, detectQueryOperation args.sql, "", now⟩ tokens),
       calls) := by
  unfold handleExecuteTool
  rw [if_neg hsql, if_neg (by simp [hsel]), hdr]
  simp only [if_neg (show ¬ (true = false) by decide), hest]

/-- The confirmed-execution path of `handleExecuteTool` up to the token
checks: with the dry-run flag off, a supplied token that is present and
unexpired, and matching statement text, the handler runs the statement
and afterwards deletes the token exactly when the execution succeeded. -/
theorem handleExecuteTool_confirm (db : DBConn) (now : Int)
    (newToken : String) (tokens : TokenStore) (args : ExecuteArgs)
    (conf : ExecuteConfirmation)
    (hsql : args.sql ≠ "") (hsel : isSelectQuery args.sql = false)
    (hdr : (if args.dryRunPresent then args.dryRunValue else true) = false)
    (htok : args.confirmToken ≠ "")
    (hlk : mapLookup args.confirmToken tokens = some conf)
    (hexp : ¬ now - conf.CreatedAt > fiveMinutes)
    (hmatch : conf.SQL = args.sql) :
    handleExecuteTool db now newToken tokens args =
      (match db.execFn args.sql with
       | .error e =>
         (.err (-32603) ("Execution failed: " ++ e), tokens,
          [DBCall.exec args.sql])
       | .ok rowsAffected =>
         (.executed ⟨conf.Operation, rowsAffected, conf.AffectedRows⟩,
          mapErase args.confirmToken tokens, [DBCall.exec args.sql])) := by
  unfold handleExecuteTool
  rw [if_neg hsql, if_neg (by simp [hsel]), hdr]
  simp only [if_pos (show false = false from rfl), if_true, if_neg htok,
    hlk, if_neg hexp, if_neg (not_not_intro hmatch)]

/-! ## Claim C8: wrong-tool rejection before any database call -/

/-- C8: the execute tool rejects a statement classified as a read with an
error naming the query tool, before any database call, leaving the token
store untouched; the query tool rejects a non-empty statement not
classified as a read with an error naming the execute tool, before any
database call, leaving the cache untouched. -/
theorem wrong_tool_rejected_before_db (db : DBConn) (now : Int) :
    (∀ (newToken : String) (tokens : TokenStore) (args : ExecuteArgs),
      isSelectQuery args.sql = true →
      handleExecuteTool db now newToken tokens args =
        (.err (-32602) "SELECT queries should use the 'query' tool instead. Use the 'query' tool for SELECT statements.",
         tokens, [])) ∧
    (∀ (cache : QueryCache) (query : String),
      query ≠ "" → isSelectQuery query = false →
      handleQueryTool db now cache query =
        (.err (-32602) (queryRejectMessage (detectQueryOperation query)),
         cache, [])) := by
  constructor
  · intro newToken tokens args hsel
    have hne : args.sql ≠ "" := by
      intro h0
      rw [h0, isSelectQuery_empty] at hsel
      cases hsel
    unfold handleExecuteTool
    rw [if_neg hne, if_pos hsel]
  · intro cache query hne hsel
    unfold handleQueryTool
    rw [if_neg hne, if_pos (by simp [hsel] : (!isSelectQuery query) = true)]

/-- C8 witness: a `SELECT` sent to the execute tool and an `UPDATE` sent
to the query tool, both rejected with the redirect messages and an empty
call trace. -/
theorem wrong_tool_rejected_witness :
    isSelectQuery "SELECT * FROM users" = true ∧
      handleExecuteTool dbUnused 0 "t" [] ⟨"SELECT * FROM users", true, true, ""⟩ =
        (.err (-32602) "SELECT queries should use the 'query' tool instead. Use the 'query' tool for SELECT statements.",
         [], []) ∧
      isSelectQuery "UPDATE t SET x=1" = false ∧
      handleQueryTool dbUnused 0 ⟨[], fiveMinutes, 1000⟩ "UPDATE t SET x=1" =
        (.err (-32602) (queryRejectMessage "UPDATE"), ⟨[], fiveMinutes, 1000⟩, []) :=
  ⟨by decide,
    (wrong_tool_rejected_before_db dbUnused 0).1 "t" []
      ⟨"SELECT * FROM users", true, true, ""⟩ (by decide),
    by decide,
    by
      have h := (wrong_tool_rejected_before_db dbUnused 0).2
        ⟨[], fiveMinutes, 1000⟩ "UPDATE t SET x=1" (by decide) (by decide)
      rw [h]
      rfl⟩

/-! ## Claim C1: token lifetime across execution outcomes (corrected)

The claim says the token is removed on every outcome of the real
execution.  In the code the deletion sits after the error return of
`Execute`, so a failed execution leaves the token in the store; it is
removed only on success. -/

/-- A collaborator whose `Execute` always fails. -/
def dbExecFail : DBConn :=
  ⟨fun _ => .error "q", fun _ => .error "connection lost", fun _ => .error "tx"⟩

/-- Store holding one valid confirmation for the C1 counterexample. -/
def tokensC1 : TokenStore :=
  [("tok1", ⟨"DELETE FROM users WHERE id = 1", 1, "DELETE", "", 0⟩)]

/-- C1 counterexample: a confirmed execution whose token is present,
unexpired and matching, but whose real execution errors, returns the
error with the token still in the store — redeemable again — contradicting
"the confirmation token is removed from the store on every outcome". -/
theorem token_survives_failed_execution :
    handleExecuteTool dbExecFail 1 "nt" tokensC1
        ⟨"DELETE FROM users WHERE id = 1", true, false, "tok1"⟩ =
      (.err (-32603) "Execution failed: connection lost", tokensC1,
       [DBCall.exec "DELETE FROM users WHERE id = 1"]) ∧
      mapLookup "tok1" tokensC1 =
        some ⟨"DELETE FROM users WHERE id = 1", 1, "DELETE", "", 0⟩ :=
  ⟨rfl, rfl⟩

/-- C1 as amended: on a confirmed execution with a present, unexpired,
matching token, the token is deleted when the real execution succeeds
(single use), but when the execution returns an error the handler answers
with the error and the store is unchanged, the token still present. -/
theorem token_deleted_on_success_only (db : DBConn) (now : Int)
    (newToken : String) (tokens : TokenStore) (args : ExecuteArgs)
    (conf : ExecuteConfirmation)
    (hsql : args.sql ≠ "") (hsel : isSelectQuery args.sql = false)
    (hdr : (if args.dryRunPresent then args.dryRunValue else true) = false)
    (htok : args.confirmToken ≠ "")
    (hlk : mapLookup args.confirmToken tokens = some conf)
    (hexp : ¬ now - conf.CreatedAt > fiveMinutes)
    (hmatch : conf.SQL = args.sql) :
    (∀ n, db.execFn args.sql = .ok n →
      handleExecuteTool db now newToken tokens args =
        (.executed ⟨conf.Operation, n, conf.AffectedRows⟩,
         mapErase args.confirmToken tokens, [DBCall.exec args.sql]) ∧
      ((mapKeys tokens).Nodup →
        mapLookup args.confirmToken (mapErase args.confirmToken tokens) = none)) ∧
    (∀ e, db.execFn args.sql = .error e →
      handleExecuteTool db now newToken tokens args =
        (.err (-32603) ("Execution failed: " ++ e), tokens,
         [DBCall.exec args.sql]) ∧
      mapLookup args.confirmToken tokens = some conf) := by
  have hbase := handleExecuteTool_confirm db now newToken tokens args conf
    hsql hsel hdr htok hlk hexp hmatch
  constructor
  · intro n hok
    rw [hok] at hbase
    exact ⟨hbase, fun hnd => mapLookup_erase_self hnd⟩
  · intro e herr
    rw [herr] at hbase
    exact ⟨hbase, hlk⟩

/-- A collaborator whose `Execute` succeeds with one affected row. -/
def dbExecOk : DBConn :=
  ⟨fun _ => .error "q", fun _ => .ok 1, fun _ => .error "tx"⟩

/-- C1 witness: the amended theorem applied to a concrete store and a
succeeding collaborator — the token is consumed. -/
theorem token_deleted_on_success_witness :
    mapLookup "tok1" tokensC1 =
        some ⟨"DELETE FROM users WHERE id = 1", 1, "DELETE", "", 0⟩ ∧
      handleExecuteTool dbExecOk 1 "nt" tokensC1
          ⟨"DELETE FROM users WHERE id = 1", true, false, "tok1"⟩ =
        (.executed ⟨"DELETE", 1, 1⟩, mapErase "tok1" tokensC1,
         [DBCall.exec "DELETE FROM users WHERE id = 1"]) ∧
      mapLookup "tok1" (mapErase "tok1" tokensC1) = none :=
  ⟨by decide,
    ((token_deleted_on_success_only dbExecOk 1 "nt" tokensC1
        ⟨"DELETE FROM users WHERE id = 1", true, false, "tok1"⟩
        ⟨"DELETE FROM users WHERE id = 1", 1, "DELETE", "", 0⟩
        (by decide) (by decide) (by decide) (by decide) (by decide)
        (by decide) (by decide)).1 1 rfl).1,
    ((token_deleted_on_success_only dbExecOk 1 "nt" tokensC1
        ⟨"DELETE FROM users WHERE id = 1", true, false, "tok1"⟩
        ⟨"DELETE FROM users WHERE id = 1", 1, "DELETE", "", 0⟩
        (by decide) (by decide) (by decide) (by decide) (by decide)
        (by decide) (by decide)).1 1 rfl).2 (by decide)⟩

/-! ## Claim C3: statement mismatch leaves the token intact -/

/-- C3: a confirmed execution with an unexpired token and a statement
different from the previewed one fails with the mismatch error, issues no
database call, and leaves the store unchanged; the token remains
redeemable for the original statement. -/
theorem statement_mismatch_preserves_token (db : DBConn) (now : Int)
    (newToken : String) (tokens : TokenStore) (args : ExecuteArgs)
    (conf : ExecuteConfirmation)
    (hsql : args.sql ≠ "") (hsel : isSelectQuery args.sql = false)
    (hdr : (if args.dryRunPresent then args.dryRunValue else true) = false)
    (htok : args.confirmToken ≠ "")
    (hlk : mapLookup args.confirmToken tokens = some conf)
    (hexp : ¬ now - conf.CreatedAt > fiveMinutes)
    (hmismatch : conf.SQL ≠ args.sql) :
    handleExecuteTool db now newToken tokens args =
      (.err (-32602) "SQL does not match the confirmation token", tokens, []) ∧
    (∀ (db2 : DBConn) (now2 : Int) (newToken2 : String) (n : Int),
      db2.execFn conf.SQL = .ok n →
      conf.SQL ≠ "" → isSelectQuery conf.SQL = false →
      ¬ now2 - conf.CreatedAt > fiveMinutes →
      handleExecuteTool db2 now2 newToken2 tokens
          ⟨conf.SQL, true, false, args.confirmToken⟩ =
        (.executed ⟨conf.Operation, n, conf.AffectedRows⟩,
         mapErase args.confirmToken tokens, [DBCall.exec conf.SQL])) := by
  constructor
  · unfold handleExecuteTool
    rw [if_neg hsql, if_neg (by simp [hsel]), hdr]
    simp only [if_pos (show false = false from rfl), if_true, if_neg htok,
      hlk, if_neg hexp, if_pos hmismatch]
  · intro db2 now2 newToken2 n hok hsql2 hsel2 hexp2
    have hbase := handleExecuteTool_confirm db2 now2 newToken2 tokens
      ⟨conf.SQL, true, false, args.confirmToken⟩ conf
      hsql2 hsel2 (by simp) htok hlk hexp2 rfl
    rw [hok] at hbase
    exact hbase

/-- C3 witness: the mismatch theorem applied to a concrete store — the
wrong statement is rejected, then the original statement still redeems. -/
theorem statement_mismatch_witness :
    handleExecuteTool dbExecFail 1 "nt" tokensC1
        ⟨"DELETE FROM users WHERE id = 2", true, false, "tok1"⟩ =
      (.err (-32602) "SQL does not match the confirmation token",
       tokensC1, []) ∧
      handleExecuteTool dbExecOk 2 "nt2" tokensC1
          ⟨"DELETE FROM users WHERE id = 1", true, false, "tok1"⟩ =
        (.executed ⟨"DELETE", 1, 1⟩, mapErase "tok1" tokensC1,
         [DBCall.exec "DELETE FROM users WHERE id = 1"]) :=
  ⟨(statement_mismatch_preserves_token dbExecFail 1 "nt" tokensC1
      ⟨"DELETE FROM users WHERE id = 2", true, false, "tok1"⟩
      ⟨"DELETE FROM users WHERE id = 1", 1, "DELETE", "", 0⟩
      (by decide) (by decide) (by decide) (by decide) (by decide)
      (by decide) (by decide)).1,
   (statement_mismatch_preserves_token dbExecFail 1 "nt" tokensC1
      ⟨"DELETE FROM users WHERE id = 2", true, false, "tok1"⟩
      ⟨"DELETE FROM users WHERE id = 1", 1, "DELETE", "", 0⟩
      (by decide) (by decide) (by decide) (by decide) (by decide)
      (by decide) (by decide)).2 dbExecOk 2 "nt2" 1 rfl
      (by decide) (by decide) (by decide)⟩

/-! ## Claim C2: the exact-count flag (corrected)

The claim says `is_exact_count` is true iff the estimate came from the
rolled-back probe.  The handler sets it from `CanUseTransaction` alone, so
a transaction-capable statement whose probe failed and whose estimate came
from the heuristic fallback is still reported exact. -/

/-- A collaborator whose probe deadlocks but whose fallback `COUNT(*)`
query answers 7 — the C2 counterexample database. -/
def dbProbeFail : DBConn :=
  ⟨fun q => if q = "SELECT COUNT(*) as count FROM t WHERE a=1" then
      .ok [[("count", GoValue.i64 7)]]
    else .error "nope",
   fun _ => .error "e", fun _ => .error "deadlock"⟩

/-- C2 counterexample: the probe fails, the heuristic fallback supplies
the estimate (7, via the rewritten `COUNT(*)` query visible in the
trace), yet the dry-run response still carries `is_exact_count = true` —
contradicting "whenever the probe fails and a heuristic fallback supplies
the estimate, the flag is false". -/
theorem is_exact_count_true_despite_fallback :
    dbProbeFail.execInTxFn "DELETE FROM t WHERE a=1" = .error "deadlock" ∧
      estimateAffectedRows dbProbeFail "DELETE FROM t WHERE a=1" =
        (.ok 7, [DBCall.execInTx "DELETE FROM t WHERE a=1",
                 DBCall.query "SELECT COUNT(*) as count FROM t WHERE a=1"]) ∧
      (handleExecuteTool dbProbeFail 5 "tk" []
          ⟨"DELETE FROM t WHERE a=1", true, true, ""⟩).1 =
        .dryRun ⟨7, "DELETE", "tk", "", "", false, true⟩ :=
  ⟨rfl, rfl, rfl⟩

/-- C2 as amended: in every successful dry run the `is_exact_count` flag
equals `CanUseTransaction` of the statement — it reports eligibility for
the rolled-back probe, not whether the probe actually produced the
estimate; in particular it stays true when the probe failed and a
heuristic supplied the estimate, and it is false exactly for statements
the probe cannot be attempted on. -/
theorem is_exact_count_is_transaction_eligibility (db : DBConn) (now : Int)
    (newToken : String) (tokens : TokenStore) (args : ExecuteArgs)
    (est : Int) (calls : List DBCall)
    (hsql : args.sql ≠ "") (hsel : isSelectQuery args.sql = false)
    (hdr : (if args.dryRunPresent then args.dryRunValue else true) = true)
    (hest : estimateAffectedRows db args.sql = (.ok est, calls)) :
    ∃ p tokens2,
      handleExecuteTool db now newToken tokens args = (.dryRun p, tokens2, calls) ∧
        p.is_exact_count = canUseTransaction args.sql ∧
        p.affected_rows = est := by
  refine ⟨_, _, handleExecuteTool_dryRun db now newToken tokens args est calls
    hsql hsel hdr hest, rfl, rfl⟩

/-- C2 witness: the amended theorem applied to the counterexample
database — the flag equals transaction eligibility (true) while the
estimate (7) came from the fallback. -/
theorem is_exact_count_eligibility_witness :
    estimateAffectedRows dbProbeFail "DELETE FROM t WHERE a=1" =
        (.ok 7, [DBCall.execInTx "DELETE FROM t WHERE a=1",
                 DBCall.query "SELECT COUNT(*) as count FROM t WHERE a=1"]) ∧
      ∃ p tokens2,
        handleExecuteTool dbProbeFail 5 "tk" []
            ⟨"DELETE FROM t WHERE a=1", true, true, ""⟩ =
          (.dryRun p, tokens2,
           [DBCall.execInTx "DELETE FROM t WHERE a=1",
            DBCall.query "SELECT COUNT(*) as count FROM t WHERE a=1"]) ∧
          p.is_exact_count = canUseTransaction "DELETE FROM t WHERE a=1" ∧
          p.affected_rows = 7 :=
  ⟨rfl,
    is_exact_count_is_transaction_eligibility dbProbeFail 5 "tk" []
      ⟨"DELETE FROM t WHERE a=1", true, true, ""⟩ 7
      [DBCall.execInTx "DELETE FROM t WHERE a=1",
       DBCall.query "SELECT COUNT(*) as count FROM t WHERE a=1"]
      (by decide) (by decide) (by decide) rfl⟩

/-! ## Claim C4: fallback estimates for DROP and UNKNOWN (corrected)

The claim says both DROP and unrecognized kinds return the `-1` sentinel
in the fallback.  The fallback `switch` has no case for an unrecognized
kind, so control falls through to `return 0, nil`: UNKNOWN yields `0`,
not `-1`.  DROP does yield `-1`, and neither issues a fallback query. -/

/-- C4 counterexample: `SET GLOBAL …` is classified UNKNOWN (and skips
the probe, since SET is non-transactional); the estimator returns `0`,
not the `-1` sentinel the claim requires for unrecognized kinds. -/
theorem unknown_kind_estimates_zero :
    detectQueryOperation "SET GLOBAL max_connections=100" = "UNKNOWN" ∧
      canUseTransaction "SET GLOBAL max_connections=100" = false ∧
      estimateAffectedRows dbUnused "SET GLOBAL max_connections=100" =
        (.ok 0, []) ∧
      ¬ ((0 : Int) = -1) :=
  ⟨rfl, rfl, rfl, by decide⟩

/-- C4 as amended: in the fallback path (probe inapplicable or failed), a
DROP-classified statement estimates `-1` and an UNKNOWN-classified
statement estimates `0` — in both cases without error and without any
fallback database query (the trace holds at most the failed probe). -/
theorem fallback_drop_unknown_estimates (db : DBConn) (sql : String) :
    (canUseTransaction sql = false →
      (detectQueryOperation sql = "DROP" →
        estimateAffectedRows db sql = (.ok (-1), [])) ∧
      (detectQueryOperation sql = "UNKNOWN" →
        estimateAffectedRows db sql = (.ok 0, []))) ∧
    (∀ e, canUseTransaction sql = true → db.execInTxFn sql = .error e →
      (detectQueryOperation sql = "DROP" →
        estimateAffectedRows db sql = (.ok (-1), [DBCall.execInTx sql])) ∧
      (detectQueryOperation sql = "UNKNOWN" →
        estimateAffectedRows db sql = (.ok 0, [DBCall.execInTx sql]))) := by
  constructor
  · intro hcu
    constructor
    · intro hop
      simp [estimateAffectedRows, hcu, hop]
    · intro hop
      simp [estimateAffectedRows, hcu, hop]
  · intro e hcu htx
    constructor
    · intro hop
      simp [estimateAffectedRows, hcu, htx, hop]
    · intro hop
      simp [estimateAffectedRows, hcu, htx, hop]

/-- C4 witness: the amended theorem applied to `DROP TABLE legacy_logs`
(probe inapplicable) and to `FLUSH PRIVILEGES` (UNKNOWN kind whose probe
fails). -/
theorem fallback_drop_unknown_witness :
    estimateAffectedRows dbUnused "DROP TABLE legacy_logs" = (.ok (-1), []) ∧
      estimateAffectedRows dbExecFail "FLUSH PRIVILEGES" =
        (.ok 0, [DBCall.execInTx "FLUSH PRIVILEGES"]) :=
  ⟨((fallback_drop_unknown_estimates dbUnused "DROP TABLE legacy_logs").1
      (by decide)).1 (by decide),
   ((fallback_drop_unknown_estimates dbExecFail "FLUSH PRIVILEGES").2 "tx"
      (by decide) rfl).2 (by decide)⟩

/-! ## Claim C9: the classifier's matching discipline (corrected)

The claim says any statement whose first keyword is outside the fixed set
classifies as UNKNOWN.  The code matches with `strings.HasPrefix`, so a
first keyword that merely *begins with* a set member (e.g. `DROPOUT`)
classifies as that member.  Case-insensitivity, leading-whitespace
stripping and the concrete comment example all hold. -/

/-- Modelled from the spec's vocabulary (not from the code): the "first
keyword" of a statement, its first whitespace-delimited word after
trimming, uppercased for the case-insensitive comparison with the fixed
keyword set. -/
def specFirstKeyword (s : String) : String :=
  String.mk ((trimSpaceList (s.data.map upperChar)).takeWhile
    (fun c => !isSpaceGo c))

/-- C9 counterexample: the first keyword of `"DROPOUT RATE"` is
`DROPOUT`, outside the fixed set, yet the classifier answers `DROP`
(prefix matching), not `UNKNOWN`. -/
theorem prefix_matching_defeats_first_keyword :
    detectQueryOperation "DROPOUT RATE" = "DROP" ∧
      specFirstKeyword "DROPOUT RATE" = "DROPOUT" ∧
      ¬ "DROPOUT" ∈ operationsList ∧
      "DROP" ≠ "UNKNOWN" :=
  ⟨rfl, rfl, by decide, by decide⟩

theorem kwAt_mem {ops : List String} {l : List Char} {op : String}
    (h : kwAt ops l = some op) : op ∈ ops :=
  List.mem_of_find?_eq_some h

theorem matchAfter_mem {ops : List String} :
    ∀ {fuel : Nat} {l : List Char} {op : String},
      matchAfter ops fuel l = some op → op ∈ ops := by
  intro fuel
  induction fuel with
  | zero =>
    intro l op h
    simp [matchAfter] at h
  | succ n ih =>
    intro l op h
    rw [matchAfter] at h
    cases hfs : (commentConts l).findSome? (fun l2 => matchAfter ops n l2) with
    | some op2 =>
      rw [hfs] at h
      have hop : op2 = op := by simpa using h
      subst hop
      obtain ⟨l1, a, l2, _, hfa, _⟩ := List.findSome?_eq_some_iff.1 hfs
      exact ih hfa
    | none =>
      rw [hfs] at h
      exact kwAt_mem h

/-- C9 as amended: classification is case-insensitive (it depends only on
the uppercased text) and ignores leading whitespace; the spec's comment
example classifies as UPDATE; but matching is by *prefix* against the
ordered set, so `"DROPOUT RATE"` classifies as DROP although its first
keyword is outside the set; every result is either a set member or
UNKNOWN. -/
theorem classifier_case_space_prefix_behaviour :
    (∀ s1 s2 : String, s1.data.map upperChar = s2.data.map upperChar →
      detectQueryOperation s1 = detectQueryOperation s2) ∧
    (∀ (c : Char) (s : String), isSpaceGo c = true →
      detectQueryOperation (String.mk (c :: s.data)) = detectQueryOperation s) ∧
    detectQueryOperation "  -- note\nupdate t set x=1" = "UPDATE" ∧
    detectQueryOperation "DROPOUT RATE" = "DROP" ∧
    (∀ s : String, detectQueryOperation s = "UNKNOWN" ∨
      detectQueryOperation s ∈ operationsList) := by
  refine ⟨?_, ?_, rfl, rfl, ?_⟩
  · intro s1 s2 h
    unfold detectQueryOperation
    rw [h]
  · intro c s hc
    have hcu : upperChar c = c := by
      simp [isSpaceGo] at hc
      rcases hc with ((((((h | h) | h) | h) | h) | h) | h) | h <;>
        subst h <;> decide
    unfold detectQueryOperation
    show detectFromTrimmed (trimSpaceList ((c :: s.data).map upperChar)) = _
    rw [List.map_cons, hcu]
    unfold trimSpaceList
    rw [List.dropWhile_cons_of_pos hc]
  · intro s
    unfold detectQueryOperation detectFromTrimmed
    cases hf : operationsList.find?
        (fun op => listStarts op.data
          (trimSpaceList (s.data.map upperChar))) with
    | some op =>
      right
      simpa using List.mem_of_find?_eq_some hf
    | none =>
      cases hr : regexKeywordMatch operationsList
          (trimSpaceList (s.data.map upperChar)) with
      | some op =>
        right
        simpa using matchAfter_mem (by simpa [regexKeywordMatch] using hr)
      | none =>
        left
        simp

/-- C9 witness: the amended theorem applied to concrete inputs — a
lowercase/uppercase pair classifying alike, and a space-prefixed DROP. -/
theorem classifier_behaviour_witness :
    detectQueryOperation "update t set x=1" = detectQueryOperation "UPDATE T SET X=1" ∧
      detectQueryOperation (String.mk (' ' :: "drop table x".data)) =
        detectQueryOperation "drop table x" :=
  ⟨(classifier_case_space_prefix_behaviour).1 "update t set x=1"
      "UPDATE T SET X=1" (by decide),
   (classifier_case_space_prefix_behaviour).2.1 ' ' "drop table x" (by decide)⟩

/-! ## Claim C5: warning tiers of the dry-run response -/

theorem warningLarge_ne_criticalDrop (n : Int) :
    warningLarge n ≠ warningCriticalDrop := by
  intro h
  have hd := congrArg String.data h
  simp only [warningLarge] at hd
  rw [String.data_append] at hd
  have hh := congrArg List.head? hd
  have h1 : (("⚠️  WARNING: This operation will affect ".data) ++
      (toString n ++ " rows").data).head? = some '⚠' := rfl
  have h2 : (warningCriticalDrop.data).head? = some '🚨' := rfl
  rw [h1, h2] at hh
  exact absurd hh (by decide)

theorem warningLarge_ne_criticalTruncate (n : Int) :
    warningLarge n ≠ warningCriticalTruncate := by
  intro h
  have hd := congrArg String.data h
  simp only [warningLarge] at hd
  rw [String.data_append] at hd
  have hh := congrArg List.head? hd
  have h1 : (("⚠️  WARNING: This operation will affect ".data) ++
      (toString n ++ " rows").data).head? = some '⚠' := rfl
  have h2 : (warningCriticalTruncate.data).head? = some '🚨' := rfl
  rw [h1, h2] at hh
  exact absurd hh (by decide)

/-- The warning of a non-DROP, non-TRUNCATE operation is the base tier. -/
theorem dryRunWarning_not_dangerous {op : String} (est : Int)
    (h1 : op ≠ "DROP") (h2 : op ≠ "TRUNCATE") :
    dryRunWarning op est =
      (if est > 1000 then
        (warningLarge est,
         "This is a large number of rows. Please ensure this is intentional.")
      else if est = -1 then (warningUnknown, warningUnknownDetail op)
      else ("", "")) := by
  unfold dryRunWarning
  rw [if_neg h1, if_neg h2]

/-- The critical wording appears exactly for DROP and TRUNCATE. -/
theorem dryRunWarning_critical_iff (op : String) (est : Int) :
    ((dryRunWarning op est).1 = warningCriticalDrop ∨
      (dryRunWarning op est).1 = warningCriticalTruncate) ↔
      (op = "DROP" ∨ op = "TRUNCATE") := by
  constructor
  · intro hcrit
    by_contra hno
    push_neg at hno
    obtain ⟨h1, h2⟩ := hno
    rw [dryRunWarning_not_dangerous est h1 h2] at hcrit
    by_cases hgt : est > 1000
    · rw [if_pos hgt] at hcrit
      rcases hcrit with hc | hc
      · exact warningLarge_ne_criticalDrop est hc
      · exact warningLarge_ne_criticalTruncate est hc
    · rw [if_neg hgt] at hcrit
      by_cases hm1 : est = -1
      · rw [if_pos hm1] at hcrit
        rcases hcrit with hc | hc
        · exact absurd hc (by decide : ¬ warningUnknown = warningCriticalDrop)
        · exact absurd hc
            (by decide : ¬ warningUnknown = warningCriticalTruncate)
      · rw [if_neg hm1] at hcrit
        rcases hcrit with hc | hc
        · exact absurd hc (by decide : ¬ ("" : String) = warningCriticalDrop)
        · exact absurd hc
            (by decide : ¬ ("" : String) = warningCriticalTruncate)
  · rintro (hop | hop) <;> subst hop
    · exact Or.inl rfl
    · exact Or.inr rfl

/-- The probe is inapplicable to `DROP TABLE legacy_logs` and the DROP
fallback answers `-1` without touching the database. -/
theorem estimate_drop_legacy (db : DBConn) :
    estimateAffectedRows db "DROP TABLE legacy_logs" = (.ok (-1), []) := rfl

/-- C5: in every successful dry run, the warning is the critical wording
exactly when the operation is DROP or TRUNCATE (overriding the other
tiers); otherwise it is the "large" wording when the estimate exceeds
1000, the "unknown" wording when the estimate is -1, and empty otherwise.
In particular a dry run of `DROP TABLE legacy_logs` answers estimate -1,
`is_exact_count = false` and the critical tier, and its token then
redeems while valid and unexpired. -/
theorem dry_run_warning_tiers (db : DBConn) (now : Int)
    (newToken : String) (tokens : TokenStore) (args : ExecuteArgs)
    (est : Int) (calls : List DBCall)
    (hsql : args.sql ≠ "") (hsel : isSelectQuery args.sql = false)
    (hdr : (if args.dryRunPresent then args.dryRunValue else true) = true)
    (hest : estimateAffectedRows db args.sql = (.ok est, calls)) :
    (∃ p tokens2,
      handleExecuteTool db now newToken tokens args = (.dryRun p, tokens2, calls) ∧
        ((p.warning = warningCriticalDrop ∨ p.warning = warningCriticalTruncate) ↔
          (detectQueryOperation args.sql = "DROP" ∨
            detectQueryOperation args.sql = "TRUNCATE")) ∧
        (detectQueryOperation args.sql ≠ "DROP" →
          detectQueryOperation args.sql ≠ "TRUNCATE" →
          (est > 1000 → p.warning = warningLarge est) ∧
          (est = -1 → p.warning = warningUnknown) ∧
          (¬ est > 1000 → est ≠ -1 → p.warning = "")) ∧
        p.affected_rows = est) ∧
    (∀ (db3 : DBConn) (now3 : Int) (tok3 : String) (tokens3 : TokenStore),
      ∃ p3 tokens4,
        handleExecuteTool db3 now3 tok3 tokens3
            ⟨"DROP TABLE legacy_logs", true, true, ""⟩ =
          (.dryRun p3, tokens4, []) ∧
        p3.affected_rows = -1 ∧ p3.is_exact_count = false ∧
        p3.warning = warningCriticalDrop ∧
        (tok3 ≠ "" → ∀ (db4 : DBConn) (now4 : Int) (tok5 : String) (n : Int),
          db4.execFn "DROP TABLE legacy_logs" = .ok n →
          ¬ now4 - now3 > fiveMinutes →
          handleExecuteTool db4 now4 tok5 tokens4
              ⟨"DROP TABLE legacy_logs", true, false, tok3⟩ =
            (.executed ⟨"DROP", n, -1⟩, mapErase tok3 tokens4,
             [DBCall.exec "DROP TABLE legacy_logs"]))) := by
  constructor
  · refine ⟨_, _, handleExecuteTool_dryRun db now newToken tokens args est calls
      hsql hsel hdr hest, ?_, ?_, rfl⟩
    · exact dryRunWarning_critical_iff (detectQueryOperation args.sql) est
    · intro h1 h2
      refine ⟨?_, ?_, ?_⟩
      · intro hgt
        show (dryRunWarning (detectQueryOperation args.sql) est).1 = _
        rw [dryRunWarning_not_dangerous est h1 h2, if_pos hgt]
      · intro hm1
        show (dryRunWarning (detectQueryOperation args.sql) est).1 = _
        rw [dryRunWarning_not_dangerous est h1 h2,
          if_neg (by omega : ¬ est > 1000), if_pos hm1]
      · intro hgt hm1
        show (dryRunWarning (detectQueryOperation args.sql) est).1 = _
        rw [dryRunWarning_not_dangerous est h1 h2, if_neg hgt, if_neg hm1]
  · intro db3 now3 tok3 tokens3
    have hmain := handleExecuteTool_dryRun db3 now3 tok3 tokens3
      ⟨"DROP TABLE legacy_logs", true, true, ""⟩ (-1) []
      (by decide) (by decide) (by decide) (estimate_drop_legacy db3)
    refine ⟨_, _, hmain, rfl, rfl, rfl, ?_⟩
    intro htok3 db4 now4 tok5 n hok hexp4
    have hkeep : (fun kv : String × ExecuteConfirmation =>
        !(now3 - kv.2.CreatedAt > fiveMinutes))
        (tok3, ⟨"DROP TABLE legacy_logs", -1,
          detectQueryOperation "DROP TABLE legacy_logs", "", now3⟩) = true := by
      simp [fiveMinutes]
    have hlk4 : mapLookup tok3
        (cleanupExpiredTokens now3
          (mapInsert tok3
            ⟨"DROP TABLE legacy_logs", -1,
              detectQueryOperation "DROP TABLE legacy_logs", "", now3⟩
            tokens3)) =
        some ⟨"DROP TABLE legacy_logs", -1,
          detectQueryOperation "DROP TABLE legacy_logs", "", now3⟩ := by
      unfold cleanupExpiredTokens
      exact mapLookup_filter (mapLookup_insert_self _ _ _) hkeep
    have hbase := handleExecuteTool_confirm db4 now4 tok5 _
      ⟨"DROP TABLE legacy_logs", true, false, tok3⟩
      ⟨"DROP TABLE legacy_logs", -1,
        detectQueryOperation "DROP TABLE legacy_logs", "", now3⟩
      (show ("DROP TABLE legacy_logs" : String) ≠ "" by decide)
      (show isSelectQuery "DROP TABLE legacy_logs" = false by decide)
      (by simp) htok3 hlk4 hexp4 rfl
    rw [hok] at hbase
    exact hbase

/-- C5 witness: the tier theorem applied to the counterexample database of
C2 (a DELETE estimating 7 rows: no warning) — and, through its second
half, the concrete `DROP TABLE legacy_logs` scenario. -/
theorem dry_run_warning_tiers_witness :
    (∃ p tokens2,
      handleExecuteTool dbProbeFail 5 "tk" []
          ⟨"DELETE FROM t WHERE a=1", true, true, ""⟩ =
        (.dryRun p, tokens2,
         [DBCall.execInTx "DELETE FROM t WHERE a=1",
          DBCall.query "SELECT COUNT(*) as count FROM t WHERE a=1"]) ∧
        ((p.warning = warningCriticalDrop ∨
            p.warning = warningCriticalTruncate) ↔
          (detectQueryOperation "DELETE FROM t WHERE a=1" = "DROP" ∨
            detectQueryOperation "DELETE FROM t WHERE a=1" = "TRUNCATE")) ∧
        (detectQueryOperation "DELETE FROM t WHERE a=1" ≠ "DROP" →
          detectQueryOperation "DELETE FROM t WHERE a=1" ≠ "TRUNCATE" →
          ((7 : Int) > 1000 → p.warning = warningLarge 7) ∧
          ((7 : Int) = -1 → p.warning = warningUnknown) ∧
          (¬ (7 : Int) > 1000 → (7 : Int) ≠ -1 → p.warning = "")) ∧
        p.affected_rows = 7) ∧
    (∀ (db3 : DBConn) (now3 : Int) (tok3 : String) (tokens3 : TokenStore),
      ∃ p3 tokens4,
        handleExecuteTool db3 now3 tok3 tokens3
            ⟨"DROP TABLE legacy_logs", true, true, ""⟩ =
          (.dryRun p3, tokens4, []) ∧
        p3.affected_rows = -1 ∧ p3.is_exact_count = false ∧
        p3.warning = warningCriticalDrop ∧
        (tok3 ≠ "" → ∀ (db4 : DBConn) (now4 : Int) (tok5 : String) (n : Int),
          db4.execFn "DROP TABLE legacy_logs" = .ok n →
          ¬ now4 - now3 > fiveMinutes →
          handleExecuteTool db4 now4 tok5 tokens4
              ⟨"DROP TABLE legacy_logs", true, false, tok3⟩ =
            (.executed ⟨"DROP", n, -1⟩, mapErase tok3 tokens4,
             [DBCall.exec "DROP TABLE legacy_logs"]))) :=
  dry_run_warning_tiers dbProbeFail 5 "tk" []
    ⟨"DELETE FROM t WHERE a=1", true, true, ""⟩ 7
    [DBCall.execInTx "DELETE FROM t WHERE a=1",
     DBCall.query "SELECT COUNT(*) as count FROM t WHERE a=1"]
    (by decide) (by decide) (by decide) rfl

end MCP
